import Mathlib

/-!
Verification of the qcloud CNS DNS-01 challenge provider
(`dns/qcloud/qcloud.go`).

The Go code is embedded shallowly:

* the external vendor HTTP client (`cns.Client`) is modelled as a record of
  pure response oracles, one per API method (`DomainList`, `RecordList`,
  `RecordCreate`, `RecordDelete`); each operation additionally returns the
  list of vendor API calls it performed, in order, so that temporal claims
  about call sequencing can be stated;
* the external framework helpers `dns01.ToFqdn`, `dns01.UnFqdn` and
  `dns01.GetRecord`'s fqdn component are tiny pure string functions and are
  modelled directly from their published sources; `dns01.FindZoneByFqdn`
  (a live DNS lookup) and the SHA-256/base64 digest inside
  `dns01.GetRecord` are kept abstract, as fields of `Ext`;
* Go strings are indexed by bytes; the model indexes by characters, which
  coincides on ASCII input (DNS names and the challenge labels involved are
  ASCII);
* Go `error` results become `Except String`, Go panics become the
  `GoResult.panicked` constructor, `*Config` becomes `Option Config`, and
  `time.Duration` values are carried as `Int` (seconds).
-/

namespace Qcloud

/-- A vendor DNS zone, modelling the fields of `cns.Domain` that the
provider reads (`Id`, `Name`); the Go zero value is `Id = 0, Name = ""`. -/
structure Domain where
  Id : Nat
  Name : String
deriving Repr, DecidableEq

/-- A vendor DNS record, modelling the fields of `cns.Record` that the
provider reads or writes. The Go field `Type` is called `type` here
because `Type` is not a usable identifier in Lean. -/
structure Record where
  Id : Nat
  type : String
  Name : String
  Value : String
  Line : String
  Ttl : Int
deriving Repr, DecidableEq

/-- One vendor API call, as observed at the `cns.Client` boundary. -/
inductive ApiCall where
  | DomainList : ApiCall
  | RecordList : String → ApiCall
  | RecordCreate : String → Record → ApiCall
  | RecordDelete : String → Nat → ApiCall
deriving Repr, DecidableEq

/-- Outcome of a Go function that can return normally, return an error, or
panic (Go panics are not error returns; they abort the operation). -/
inductive GoResult (α : Type) where
  | ok : α → GoResult α
  | err : String → GoResult α
  | panicked : String → GoResult α
deriving Repr, DecidableEq

/-- The vendor client `cns.Client`, modelled as pure response oracles:
the response each API method would give for given arguments. -/
structure Client where
  domainListResp : Except String (List Domain)
  recordListResp : String → Except String (List Record)
  recordCreateResp : String → Record → Except String Unit
  recordDeleteResp : String → Nat → Except String Unit

/-- External collaborators that are not pure string manipulation:
`dns01.FindZoneByFqdn` (live DNS SOA lookup) and the digest part of
`dns01.GetRecord` (SHA-256 + base64url of the key authorization). -/
structure Ext where
  findZoneByFqdn : String → Except String String
  keyAuthDigest : String → String

/-- `Config` from qcloud.go. The `HTTPClient` field is omitted: the
provider never reads it (the only use is commented out in the source).
Durations are in seconds. -/
structure Config where
  SecretId : String
  SecretKey : String
  TTL : Int
  PropagationTimeout : Int
  PollingInterval : Int
deriving Repr, DecidableEq

/-- `DNSProvider` from qcloud.go: a configuration and a vendor client. -/
structure DNSProvider where
  config : Config
  client : Client

/-- Model of `dns01.ToFqdn` (external lego helper): append a trailing dot
unless the name is empty or already ends in a dot. -/
def toFqdn (name : String) : String :=
  if name.data = [] ∨ name.data.getLast? = some '.' then name else name ++ "."

/-- Model of `dns01.UnFqdn` (external lego helper): drop one trailing dot
if present. -/
def unFqdn (name : String) : String :=
  if name.data.getLast? = some '.' then ⟨name.data.dropLast⟩ else name

/-- Model of the fqdn/value pair computed by `dns01.GetRecord`:
`fqdn = "_acme-challenge." + domain + "."` and the TXT value is the
abstract digest of the key authorization. -/
def getRecord (E : Ext) (domain keyAuth : String) : String × String :=
  ("_acme-challenge." ++ domain ++ ".", E.keyAuthDigest keyAuth)

/-- Model of Go `strings.Index`: index of the first occurrence of `pat`
in the scanned list, starting the count at `i`. -/
def firstIdxAux (pat : List Char) : List Char → Nat → Option Nat
  | [], i => if pat = [] then some i else none
  | c :: rest, i =>
    if pat.isPrefixOf (c :: rest) then some i
    else firstIdxAux pat rest (i + 1)

/-- Index of the first occurrence of `pat` in `s` (`strings.Index`,
character-indexed). -/
def firstIdx (s pat : List Char) : Option Nat :=
  firstIdxAux pat s 0

/-- `extractRecordName` from qcloud.go: un-FQDN the fqdn, then truncate it
before the first occurrence of `"." + domain` (`strings.Index`); if there
is no occurrence, return the whole un-FQDN'd name. -/
def extractRecordName (fqdn domain : String) : String :=
  let name := unFqdn fqdn
  match firstIdx name.data ("." ++ domain).data with
  | some idx => ⟨name.data.take idx⟩
  | none => name

/-- The record-name derivation as the specification words it: un-FQDN the
fqdn and strip the zone suffix `"." + zone` from its END (only there).
Stated for comparison with `extractRecordName`, which is the source's
first-occurrence truncation. -/
def specRecordName (fqdn zone : String) : String :=
  let name := unFqdn fqdn
  let suffixChars := ("." ++ zone).data
  if suffixChars <:+ name.data then
    ⟨name.data.take (name.data.length - suffixChars.length)⟩
  else name

/-- The inline wildcard fixup at the top of `Present` and `CleanUp`:
`if domain[:2] == "*." { domain = domain[2:] }`. Go panics when
`len(domain) < 2` because `domain[:2]` is evaluated unconditionally. -/
def stripWildcard (domain : String) : GoResult String :=
  if domain.data.length < 2 then
    GoResult.panicked "runtime error: slice bounds out of range"
  else if (⟨domain.data.take 2⟩ : String) = "*." then
    GoResult.ok ⟨domain.data.drop 2⟩
  else GoResult.ok domain

/-- The result component of `getHostedZone` from qcloud.go: list the
account's zones, resolve the authoritative zone of the domain, keep the
last listed zone whose name equals the un-FQDN'd authoritative zone
(fold starting from the Go zero value), and fail when the kept zone's
`Id` is `0`. Returns `(Id printed in decimal, zone name)`. -/
def getHostedZoneRes (E : Ext) (c : Client) (domain : String) :
    Except String (String × String) :=
  match c.domainListResp with
  | .error e => .error ("qcloud cns: DomainList() API call failed: " ++ e)
  | .ok zones =>
    match E.findZoneByFqdn (toFqdn domain) with
    | .error e => .error e
    | .ok authZone =>
      let hostedZone := zones.foldl
        (fun acc zone => if zone.Name = unFqdn authZone then zone else acc)
        { Id := 0, Name := "" }
      if hostedZone.Id = 0 then
        .error ("getHostedZone: zone " ++ authZone ++
          " not found in qcloud cns for domain " ++ domain)
      else
        .ok (toString hostedZone.Id, hostedZone.Name)

/-- `getHostedZone` with its vendor API trace: it always performs exactly
one `DomainList` call (the first thing the Go function does). -/
def getHostedZone (E : Ext) (c : Client) (domain : String) :
    Except String (String × String) × List ApiCall :=
  (getHostedZoneRes E c domain, [ApiCall.DomainList])

/-- `newTxtRecord` from qcloud.go: the record literal handed to
`RecordCreate`; `Id` is the Go zero value. -/
def newTxtRecord (zone fqdn value : String) (ttl : Int) : Record :=
  { Id := 0
    type := "TXT"
    Name := extractRecordName fqdn zone
    Value := value
    Line := "默认"
    Ttl := ttl }

/-- `findTxtRecords` from qcloud.go: resolve the hosted zone, list its
records, and keep those whose `Name` equals the derived record name
(no condition on the record type). -/
def findTxtRecords (E : Ext) (d : DNSProvider) (domain fqdn : String) :
    Except String (List Record) × List ApiCall :=
  match getHostedZone E d.client domain with
  | (.error e, calls) => (.error e, calls)
  | (.ok zp, calls) =>
    let zoneName := zp.2
    match d.client.recordListResp zoneName with
    | .error e =>
        (.error ("qcloud cns: RecordList() API call has failed: " ++ e),
         calls ++ [ApiCall.RecordList zoneName])
    | .ok result =>
        let recordName := extractRecordName fqdn zoneName
        (.ok (result.filter (fun record => record.Name = recordName)),
         calls ++ [ApiCall.RecordList zoneName])

/-- The body of `Present` after the wildcard fixup (qcloud.go lines
88-101): compute fqdn/value, resolve the hosted zone, then create the
TXT record, wrapping a `RecordCreate` failure. -/
def presentCore (E : Ext) (d : DNSProvider) (dom keyAuth : String) :
    GoResult Unit × List ApiCall :=
  let fqdn := (getRecord E dom keyAuth).1
  let value := (getRecord E dom keyAuth).2
  match getHostedZone E d.client dom with
  | (.error e, calls) => (.err e, calls)
  | (.ok zp, calls) =>
    let zoneName := zp.2
    let recordAttributes := newTxtRecord zoneName fqdn value d.config.TTL
    match d.client.recordCreateResp zoneName recordAttributes with
    | .error e =>
        (.err ("qcloud cns: RecordCreate() API call failed: " ++ e),
         calls ++ [ApiCall.RecordCreate zoneName recordAttributes])
    | .ok _ =>
        (.ok (), calls ++ [ApiCall.RecordCreate zoneName recordAttributes])

/-- `Present` from qcloud.go: the wildcard fixup followed by the body
`presentCore` on the (possibly stripped) domain. -/
def Present (E : Ext) (d : DNSProvider) (domain token keyAuth : String) :
    GoResult Unit × List ApiCall :=
  match stripWildcard domain with
  | .panicked m => (.panicked m, [])
  | .err m => (.err m, [])
  | .ok dom => presentCore E d dom keyAuth

/-- The delete loop at the end of `CleanUp`: delete each found record by
its `Id`, stopping at (and wrapping) the first `RecordDelete` failure. -/
def deleteLoop (c : Client) (zoneName : String) :
    List Record → List ApiCall → GoResult Unit × List ApiCall
  | [], calls => (.ok (), calls)
  | r :: rest, calls =>
    match c.recordDeleteResp zoneName r.Id with
    | .error e =>
        (.err ("CleanUp(): qcloud cns: RecordDelete err: " ++ e),
         calls ++ [ApiCall.RecordDelete zoneName r.Id])
    | .ok _ =>
        deleteLoop c zoneName rest (calls ++ [ApiCall.RecordDelete zoneName r.Id])

/-- The body of `CleanUp` after the wildcard fixup (qcloud.go lines
109-128): recompute the fqdn, find the matching records (which resolves
the hosted zone a first time), resolve the hosted zone again, then
delete each found record by `Id`. -/
def cleanUpCore (E : Ext) (d : DNSProvider) (dom keyAuth : String) :
    GoResult Unit × List ApiCall :=
  let fqdn := (getRecord E dom keyAuth).1
  match findTxtRecords E d dom fqdn with
  | (.error e, calls1) =>
      (.err ("CleanUp(): findTxtRecords err: " ++ e), calls1)
  | (.ok records, calls1) =>
    match getHostedZone E d.client dom with
    | (.error e, calls2) =>
        (.err ("CleanUp(): getHostedZone err: " ++ e), calls1 ++ calls2)
    | (.ok zp, calls2) =>
        deleteLoop d.client zp.2 records (calls1 ++ calls2)

/-- `CleanUp` from qcloud.go: the wildcard fixup followed by the body
`cleanUpCore` on the (possibly stripped) domain. -/
def CleanUp (E : Ext) (d : DNSProvider) (domain token keyAuth : String) :
    GoResult Unit × List ApiCall :=
  match stripWildcard domain with
  | .panicked m => (.panicked m, [])
  | .err m => (.err m, [])
  | .ok dom => cleanUpCore E d dom keyAuth

/-- `Timeout` from qcloud.go: the propagation timeout and polling interval
stored in the configuration. A total pure function of the provider. -/
def Timeout (d : DNSProvider) : Int × Int :=
  (d.config.PropagationTimeout, d.config.PollingInterval)

/-- Model of lego `env.GetOrDefaultInt`: parse the variable as an integer,
falling back to the default when absent or unparsable. -/
def getOrDefaultInt (osEnv : String → String) (envVar : String)
    (defaultValue : Int) : Int :=
  match (osEnv envVar).toInt? with
  | some v => v
  | none => defaultValue

/-- Model of lego `env.GetOrDefaultSecond`: a non-negative integer number
of seconds, else the default. -/
def getOrDefaultSecond (osEnv : String → String) (envVar : String)
    (defaultValue : Int) : Int :=
  let v := getOrDefaultInt osEnv envVar (-1)
  if v < 0 then defaultValue else v

/-- `NewDefaultConfig` from qcloud.go, with lego's defaults
(`dns01.DefaultPropagationTimeout` = 60 s, `dns01.DefaultPollingInterval`
= 2 s); the `HTTPClient` field is omitted as unused. -/
def NewDefaultConfig (osEnv : String → String) : Config :=
  { SecretId := ""
    SecretKey := ""
    TTL := getOrDefaultInt osEnv "QCLOUD_TTL" 600
    PropagationTimeout := getOrDefaultSecond osEnv "QCLOUD_PROPAGATION_TIMEOUT" 60
    PollingInterval := getOrDefaultSecond osEnv "QCLOUD_POLLING_INTERVAL" 2 }

/-- Model of lego `env.Get` specialised to two variables: read both, and
fail naming every variable whose value is empty. -/
def envGet (osEnv : String → String) (name1 name2 : String) :
    Except String (String × String) :=
  let v1 := osEnv name1
  let v2 := osEnv name2
  let missingEnvVars :=
    (if v1 = "" then [name1] else []) ++ (if v2 = "" then [name2] else [])
  if missingEnvVars = [] then .ok (v1, v2)
  else .error ("some credentials information are missing: " ++
    String.intercalate "," missingEnvVars)

/-- `NewDNSProviderConfig` from qcloud.go: reject a nil configuration,
reject an empty `SecretKey` (note: `SecretId` is not checked), then build
the vendor client from the two secrets. `cnsNew` models `cns.New`. -/
def NewDNSProviderConfig (cnsNew : String → String → Client)
    (config : Option Config) : Except String DNSProvider :=
  match config with
  | none => .error "qcloud cns: the configuration of the DNS provider is nil"
  | some config =>
    if config.SecretKey = "" then
      .error "qcloud cns: credentials missing"
    else
      .ok { client := cnsNew config.SecretId config.SecretKey, config := config }

/-- `NewDNSProvider` from qcloud.go: read `QCLOUD_SECRET_ID` and
`QCLOUD_SECRET_KEY` from the environment (failing with a wrapped error
when either is absent), install them in a default configuration, and
defer to `NewDNSProviderConfig`. -/
def NewDNSProvider (osEnv : String → String)
    (cnsNew : String → String → Client) : Except String DNSProvider :=
  match envGet osEnv "QCLOUD_SECRET_ID" "QCLOUD_SECRET_KEY" with
  | .error e => .error ("qcloud cns: " ++ e)
  | .ok vals =>
    let config := { NewDefaultConfig osEnv with
      SecretId := vals.1, SecretKey := vals.2 }
    NewDNSProviderConfig cnsNew (some config)

/-- Whether an `Except` result is a success. -/
def exceptIsOk {ε α : Type} : Except ε α → Bool
  | .ok _ => true
  | .error _ => false

/-- Whether the client would answer a given API call successfully. -/
def callOk (c : Client) : ApiCall → Bool
  | .DomainList => exceptIsOk c.domainListResp
  | .RecordList z => exceptIsOk (c.recordListResp z)
  | .RecordCreate z r => exceptIsOk (c.recordCreateResp z r)
  | .RecordDelete z i => exceptIsOk (c.recordDeleteResp z i)

/-- The vendor error string a given API call would fail with, if any. -/
def callErr (c : Client) : ApiCall → Option String
  | .DomainList =>
    match c.domainListResp with | .error e => some e | .ok _ => none
  | .RecordList z =>
    match c.recordListResp z with | .error e => some e | .ok _ => none
  | .RecordCreate z r =>
    match c.recordCreateResp z r with | .error e => some e | .ok _ => none
  | .RecordDelete z i =>
    match c.recordDeleteResp z i with | .error e => some e | .ok _ => none

/-- Whether an API call is a `RecordDelete`. -/
def isRecordDeleteCall : ApiCall → Bool
  | .RecordDelete _ _ => true
  | _ => false

/-- The record `Present` hands to `RecordCreate` for a (stripped) domain
and a resolved zone name. -/
def presentRecord (E : Ext) (p : DNSProvider) (dom keyAuth zoneName : String) :
    Record :=
  newTxtRecord zoneName (getRecord E dom keyAuth).1 (getRecord E dom keyAuth).2
    p.config.TTL

/-- Concrete external collaborators for evaluation: the authoritative zone
of every name is `example.com.` and the challenge digest is a fixed
string. -/
def extA : Ext :=
  { findZoneByFqdn := fun _ => .ok "example.com."
    keyAuthDigest := fun _ => "DIGESTVALUE" }

/-- A concrete vendor record of type `A` whose name collides with the
challenge label. -/
def recA : Record :=
  { Id := 7, type := "A", Name := "_acme-challenge", Value := "1.2.3.4"
    Line := "默认", Ttl := 600 }

/-- A concrete TXT challenge record with vendor id 7. -/
def recT7 : Record :=
  { Id := 7, type := "TXT", Name := "_acme-challenge", Value := "DIGESTVALUE"
    Line := "默认", Ttl := 600 }

/-- A concrete TXT challenge record with vendor id 8. -/
def recT8 : Record :=
  { Id := 8, type := "TXT", Name := "_acme-challenge", Value := "DIGESTVALUE"
    Line := "默认", Ttl := 600 }

/-- A concrete client: one zone `example.com`, one `A` record at the
challenge name, and every call succeeds. -/
def clientA : Client :=
  { domainListResp := .ok [{ Id := 12, Name := "example.com" }]
    recordListResp := fun _ => .ok [recA]
    recordCreateResp := fun _ _ => .ok ()
    recordDeleteResp := fun _ _ => .ok () }

/-- A concrete configuration. -/
def cfgA : Config :=
  { SecretId := "sid", SecretKey := "skey", TTL := 600
    PropagationTimeout := 60, PollingInterval := 2 }

/-- A concrete provider over `clientA`. -/
def provA : DNSProvider := { config := cfgA, client := clientA }

/-- A concrete client listing two matching TXT records, whose
`RecordDelete` succeeds on id 7 and fails on id 8. -/
def clientDel : Client :=
  { domainListResp := .ok [{ Id := 12, Name := "example.com" }]
    recordListResp := fun _ => .ok [recT7, recT8]
    recordCreateResp := fun _ _ => .ok ()
    recordDeleteResp := fun _ i => if i = 8 then .error "delete failed" else .ok () }

/-- A concrete provider over `clientDel`. -/
def provDel : DNSProvider := { config := cfgA, client := clientDel }

/-- A concrete client whose every call fails. -/
def clientErr : Client :=
  { domainListResp := .error "api down"
    recordListResp := fun _ => .error "api down"
    recordCreateResp := fun _ _ => .error "api down"
    recordDeleteResp := fun _ _ => .error "api down" }

/-- A concrete provider over `clientErr`. -/
def provErr : DNSProvider := { config := cfgA, client := clientErr }

/-- Two zones with the same name and distinct nonzero ids. -/
def zonesDup : List Domain :=
  [{ Id := 1, Name := "example.com" }, { Id := 2, Name := "example.com" }]

/-- Two zones with the same name whose last occurrence has id 0. -/
def zonesZero : List Domain :=
  [{ Id := 5, Name := "example.com" }, { Id := 0, Name := "example.com" }]

/-- A client listing the two same-named zones with nonzero ids. -/
def clientDup : Client := { clientA with domainListResp := .ok zonesDup }

/-- A client listing the two same-named zones whose last has id 0. -/
def clientZero : Client := { clientA with domainListResp := .ok zonesZero }

/-- A concrete `cns.New`: the two secrets produce `clientA`. -/
def cnsNewA : String → String → Client := fun _ _ => clientA

/-- An environment carrying both qcloud secrets. -/
def envBoth : String → String := fun n =>
  if n = "QCLOUD_SECRET_ID" then "sid"
  else if n = "QCLOUD_SECRET_KEY" then "skey"
  else ""

/-- An environment missing `QCLOUD_SECRET_ID`. -/
def envNoId : String → String := fun n =>
  if n = "QCLOUD_SECRET_KEY" then "skey" else ""

/-- A configuration whose `SecretId` is empty but whose `SecretKey` is
not. -/
def cfgNoId : Config :=
  { SecretId := "", SecretKey := "skey", TTL := 600
    PropagationTimeout := 60, PollingInterval := 2 }

/-- The provider `NewDNSProvider` builds over `envBoth` and `cnsNewA`. -/
def provBoth : DNSProvider := { config := cfgA, client := clientA }

/- ------------------------------------------------------------------ -/
/- Helper lemmas                                                      -/
/- ------------------------------------------------------------------ -/

theorem mk_data_eq : ∀ s : String, (⟨s.data⟩ : String) = s
  | ⟨_⟩ => rfl

theorem stripWildcard_ne_err (domain m : String) :
    stripWildcard domain ≠ GoResult.err m := by
  unfold stripWildcard
  split
  · simp
  · split <;> simp

theorem deleteLoop_ok_trace (c : Client) (z : String) :
    ∀ (rs : List Record) (acc tr : List ApiCall),
      deleteLoop c z rs acc = (.ok (), tr) →
      tr = acc ++ rs.map (fun r => ApiCall.RecordDelete z r.Id) := by
  intro rs
  induction rs with
  | nil =>
    intro acc tr h
    simp only [deleteLoop, Prod.mk.injEq] at h
    simp [← h.2]
  | cons r rest ih =>
    intro acc tr h
    simp only [deleteLoop] at h
    cases hr : c.recordDeleteResp z r.Id with
    | error e => rw [hr] at h; simp at h
    | ok u =>
      rw [hr] at h
      have := ih (acc ++ [ApiCall.RecordDelete z r.Id]) tr h
      simp [this]

theorem deleteLoop_trace_split (c : Client) (z : String) :
    ∀ (rs : List Record) (acc : List ApiCall),
      ∃ suffix, (deleteLoop c z rs acc).2 = acc ++ suffix ∧
        ∀ a ∈ suffix, ∃ i, a = ApiCall.RecordDelete z i := by
  intro rs
  induction rs with
  | nil =>
    intro acc
    exact ⟨[], by simp [deleteLoop], by simp⟩
  | cons r rest ih =>
    intro acc
    cases hr : c.recordDeleteResp z r.Id with
    | error e =>
      refine ⟨[ApiCall.RecordDelete z r.Id], ?_, ?_⟩
      · simp [deleteLoop, hr]
      · simp
    | ok u =>
      obtain ⟨suffix, hs, hmem⟩ := ih (acc ++ [ApiCall.RecordDelete z r.Id])
      refine ⟨ApiCall.RecordDelete z r.Id :: suffix, ?_, ?_⟩
      · simp only [deleteLoop, hr, hs]
        simp
      · intro a ha
        rcases List.mem_cons.mp ha with h | h
        · exact ⟨r.Id, h⟩
        · exact hmem a h

theorem deleteLoop_fail_wrap (c : Client) (z : String) :
    ∀ (rs : List Record) (acc : List ApiCall),
      (∀ a ∈ acc, callOk c a = true) →
      (∀ a ∈ (deleteLoop c z rs acc).2.dropLast, callOk c a = true) ∧
      (∀ a, (deleteLoop c z rs acc).2.getLast? = some a → callOk c a = false →
        ∃ ctx e, (deleteLoop c z rs acc).1 = .err (ctx ++ e) ∧ ctx ≠ "" ∧
          callErr c a = some e) := by
  intro rs
  induction rs with
  | nil =>
    intro acc hacc
    constructor
    · intro a ha
      exact hacc a (List.dropLast_subset acc ha)
    · intro a hlast hbad
      have : a ∈ acc := List.mem_of_mem_getLast? (by simpa [deleteLoop] using hlast)
      rw [hacc a this] at hbad
      cases hbad
  | cons r rest ih =>
    intro acc hacc
    cases hr : c.recordDeleteResp z r.Id with
    | error e =>
      constructor
      · intro a ha
        simp only [deleteLoop, hr, List.dropLast_concat] at ha
        exact hacc a ha
      · intro a hlast _
        simp only [deleteLoop, hr, List.getLast?_concat, Option.some.injEq] at hlast
        refine ⟨"CleanUp(): qcloud cns: RecordDelete err: ", e, ?_, by decide, ?_⟩
        · simp [deleteLoop, hr]
        · simp [← hlast, callErr, hr]
    | ok u =>
      have hstep : ∀ a ∈ acc ++ [ApiCall.RecordDelete z r.Id], callOk c a = true := by
        intro a ha
        rcases List.mem_append.mp ha with h | h
        · exact hacc a h
        · simp only [List.mem_singleton] at h
          simp [h, callOk, hr, exceptIsOk]
      have := ih (acc ++ [ApiCall.RecordDelete z r.Id]) hstep
      constructor
      · intro a ha
        refine this.1 a ?_
        simpa only [deleteLoop, hr] using ha
      · intro a hlast hbad
        refine ?_
        have h2 := this.2 a (by simpa only [deleteLoop, hr] using hlast) hbad
        simpa only [deleteLoop, hr] using h2

theorem Present_char (E : Ext) (p : DNSProvider) (domain token keyAuth : String) :
    (∃ m, stripWildcard domain = GoResult.panicked m ∧
      Present E p domain token keyAuth = (GoResult.panicked m, [])) ∨
    (∃ dom e, stripWildcard domain = GoResult.ok dom ∧
      getHostedZoneRes E p.client dom = .error e ∧
      Present E p domain token keyAuth = (GoResult.err e, [ApiCall.DomainList])) ∨
    (∃ dom zoneId zoneName,
      stripWildcard domain = GoResult.ok dom ∧
      getHostedZoneRes E p.client dom = .ok (zoneId, zoneName) ∧
      ((∃ e, p.client.recordCreateResp zoneName (presentRecord E p dom keyAuth zoneName)
          = .error e ∧
        Present E p domain token keyAuth =
          (GoResult.err ("qcloud cns: RecordCreate() API call failed: " ++ e),
           [ApiCall.DomainList,
            ApiCall.RecordCreate zoneName (presentRecord E p dom keyAuth zoneName)])) ∨
       (p.client.recordCreateResp zoneName (presentRecord E p dom keyAuth zoneName)
          = .ok () ∧
        Present E p domain token keyAuth =
          (GoResult.ok (),
           [ApiCall.DomainList,
            ApiCall.RecordCreate zoneName (presentRecord E p dom keyAuth zoneName)])))) := by
  cases hs : stripWildcard domain with
  | panicked m =>
    exact Or.inl ⟨m, rfl, by simp [Present, hs]⟩
  | err m =>
    exact absurd hs (stripWildcard_ne_err domain m)
  | ok dom =>
    cases hz : getHostedZoneRes E p.client dom with
    | error e =>
      exact Or.inr (Or.inl ⟨dom, e, rfl, hz,
        by simp [Present, presentCore, hs, getHostedZone, hz]⟩)
    | ok zp =>
      obtain ⟨zoneId, zoneName⟩ := zp
      refine Or.inr (Or.inr ⟨dom, zoneId, zoneName, rfl, hz, ?_⟩)
      cases hc : p.client.recordCreateResp zoneName
          (presentRecord E p dom keyAuth zoneName) with
      | error e =>
        refine Or.inl ⟨e, rfl, ?_⟩
        simp only [presentRecord] at hc
        simp [Present, presentCore, hs, getHostedZone, hz, hc, presentRecord]
      | ok u =>
        cases u
        refine Or.inr ⟨rfl, ?_⟩
        simp only [presentRecord] at hc
        simp [Present, presentCore, hs, getHostedZone, hz, hc, presentRecord]

theorem CleanUp_char (E : Ext) (p : DNSProvider) (domain token keyAuth : String) :
    (∃ m, stripWildcard domain = GoResult.panicked m ∧
      CleanUp E p domain token keyAuth = (GoResult.panicked m, [])) ∨
    (∃ dom e, stripWildcard domain = GoResult.ok dom ∧
      getHostedZoneRes E p.client dom = .error e ∧
      CleanUp E p domain token keyAuth =
        (GoResult.err ("CleanUp(): findTxtRecords err: " ++ e),
         [ApiCall.DomainList])) ∨
    (∃ dom zoneId zoneName e, stripWildcard domain = GoResult.ok dom ∧
      getHostedZoneRes E p.client dom = .ok (zoneId, zoneName) ∧
      p.client.recordListResp zoneName = .error e ∧
      CleanUp E p domain token keyAuth =
        (GoResult.err ("CleanUp(): findTxtRecords err: " ++
          ("qcloud cns: RecordList() API call has failed: " ++ e)),
         [ApiCall.DomainList, ApiCall.RecordList zoneName])) ∨
    (∃ dom zoneId zoneName result, stripWildcard domain = GoResult.ok dom ∧
      getHostedZoneRes E p.client dom = .ok (zoneId, zoneName) ∧
      p.client.recordListResp zoneName = .ok result ∧
      CleanUp E p domain token keyAuth =
        deleteLoop p.client zoneName
          (result.filter (fun record => record.Name =
            extractRecordName (getRecord E dom keyAuth).1 zoneName))
          [ApiCall.DomainList, ApiCall.RecordList zoneName, ApiCall.DomainList]) := by
  cases hs : stripWildcard domain with
  | panicked m =>
    exact Or.inl ⟨m, rfl, by simp [CleanUp, hs]⟩
  | err m =>
    exact absurd hs (stripWildcard_ne_err domain m)
  | ok dom =>
    cases hz : getHostedZoneRes E p.client dom with
    | error e =>
      exact Or.inr (Or.inl ⟨dom, e, rfl, hz,
        by simp [CleanUp, cleanUpCore, hs, findTxtRecords, getHostedZone, hz]⟩)
    | ok zp =>
      obtain ⟨zoneId, zoneName⟩ := zp
      cases hl : p.client.recordListResp zoneName with
      | error e =>
        exact Or.inr (Or.inr (Or.inl ⟨dom, zoneId, zoneName, e, rfl, hz, hl,
          by simp [CleanUp, cleanUpCore, hs, findTxtRecords, getHostedZone, hz, hl]⟩))
      | ok result =>
        refine Or.inr (Or.inr (Or.inr ⟨dom, zoneId, zoneName, result, rfl, hz,
          hl, ?_⟩))
        simp [CleanUp, cleanUpCore, hs, findTxtRecords, getHostedZone, hz, hl, getRecord]

theorem stripWildcard_wildcard (rest : String) :
    stripWildcard ("*." ++ rest) = GoResult.ok rest := by
  have hd : ("*." ++ rest).data = '*' :: '.' :: rest.data := by
    rw [String.data_append]
    rfl
  unfold stripWildcard
  rw [hd]
  rw [if_neg (by simp)]
  rw [if_pos (by simp only [List.take_succ_cons, List.take_zero])]
  rw [List.drop_succ_cons, List.drop_succ_cons, List.drop_zero]

theorem stripWildcard_plain (rest : String)
    (h1 : (⟨rest.data.take 2⟩ : String) ≠ "*.") (h2 : 2 ≤ rest.data.length) :
    stripWildcard rest = GoResult.ok rest := by
  unfold stripWildcard
  rw [if_neg (by omega), if_neg h1]

theorem firstIdxAux_spec (pat : List Char) :
    ∀ (s : List Char) (i j : Nat), firstIdxAux pat s i = some j →
      i ≤ j ∧ j - i ≤ s.length ∧ pat.isPrefixOf (s.drop (j - i)) = true := by
  intro s
  induction s with
  | nil =>
    intro i j h
    simp only [firstIdxAux] at h
    split at h
    · rename_i hp
      cases h
      exact ⟨Nat.le_refl _, by simp, by simp [hp, List.isPrefixOf]⟩
    · cases h
  | cons c rest ih =>
    intro i j h
    simp only [firstIdxAux] at h
    split at h
    · rename_i hp
      cases h
      exact ⟨Nat.le_refl _, by simp, by simpa using hp⟩
    · obtain ⟨h1, h2, h3⟩ := ih (i + 1) j h
      refine ⟨by omega, by simp only [List.length_cons]; omega, ?_⟩
      have heq : j - i = (j - (i + 1)) + 1 := by omega
      rw [heq, List.drop_succ_cons]
      exact h3

/-- C2 (amended): `extractRecordName(fqdn, zone)` un-FQDNs the fqdn and
truncates it before the FIRST occurrence of `"." ++ zone` anywhere in the
name (`strings.Index`), returning the whole name when there is no
occurrence; whenever that first occurrence is the tail occurrence (index
`length - suffix length`), this equals the spec's suffix-stripped name.
The counterexample `C2_counterexample` shows the two differ when an
earlier occurrence exists, so the claim's universal suffix-stripping
reading is false. -/
theorem C2_extract_record_name (fqdn zone : String)
    (h : firstIdx (unFqdn fqdn).data ("." ++ zone).data =
      some ((unFqdn fqdn).data.length - ("." ++ zone).data.length)) :
    extractRecordName fqdn zone = specRecordName fqdn zone := by
  set n := (unFqdn fqdn).data with hn
  set pat := ("." ++ zone).data with hpat
  obtain ⟨-, h2, h3⟩ := firstIdxAux_spec pat n 0 (n.length - pat.length) h
  rw [Nat.sub_zero] at h2 h3
  have hpre : pat <+: n.drop (n.length - pat.length) :=
    List.isPrefixOf_iff_prefix.mp h3
  have hlen : pat.length ≤ (n.drop (n.length - pat.length)).length :=
    hpre.length_le
  rw [List.length_drop] at hlen
  have hplen : (n.drop (n.length - pat.length)).length = pat.length := by
    rw [List.length_drop]; omega
  have heq : pat = n.drop (n.length - pat.length) :=
    hpre.eq_of_length (by rw [hplen])
  have hsuf : pat <:+ n := by
    refine ⟨n.take (n.length - pat.length), ?_⟩
    conv_rhs => rw [← List.take_append_drop (n.length - pat.length) n]
    rw [← heq]
  have e1 : extractRecordName fqdn zone = ⟨n.take (n.length - pat.length)⟩ := by
    simp only [extractRecordName]
    rw [← hn, ← hpat, h]
  have e2 : specRecordName fqdn zone = ⟨n.take (n.length - pat.length)⟩ := by
    simp only [specRecordName]
    rw [← hn, ← hpat, if_pos hsuf]
  rw [e1, e2]

/-- C2 counterexample: with `fqdn = "c.a.b.x.a.b."` and matched zone
`"a.b"`, the code truncates at the FIRST occurrence of `".a.b"` and
returns `"c"`, while the claimed suffix-stripping from the end would give
`"c.a.b.x"`. -/
theorem C2_counterexample :
    extractRecordName "c.a.b.x.a.b." "a.b" = "c" ∧
    specRecordName "c.a.b.x.a.b." "a.b" = "c.a.b.x" ∧
    extractRecordName "c.a.b.x.a.b." "a.b" ≠ specRecordName "c.a.b.x.a.b." "a.b" := by
  refine ⟨by decide, by decide, by decide⟩

/-- Witness for `C2_extract_record_name` at the ordinary challenge input. -/
theorem C2_witness :
    firstIdx (unFqdn "_acme-challenge.example.com.").data
        ("." ++ "example.com").data =
      some ((unFqdn "_acme-challenge.example.com.").data.length -
        ("." ++ "example.com").data.length) ∧
    extractRecordName "_acme-challenge.example.com." "example.com" =
      specRecordName "_acme-challenge.example.com." "example.com" :=
  ⟨by decide, C2_extract_record_name "_acme-challenge.example.com." "example.com"
    (by decide)⟩

/-- C3 (amended): for every domain of at least two characters, if it
begins with `"*."` then `Present` and `CleanUp` run the common
post-fixup body (`presentCore` / `cleanUpCore`) on the domain with those
first two characters removed — whatever the remainder looks like — and
otherwise they run it on the domain unchanged: the wildcard prefix is
stripped exactly once, before the FQDN is computed and the zone
resolved. The claim's unrestricted version is false because domains
shorter than two characters panic instead of being used unchanged
(`C3_counterexample`). -/
theorem C3_wildcard_strip (E : Ext) (p : DNSProvider)
    (domain token keyAuth : String) (h : 2 ≤ domain.data.length) :
    ((⟨domain.data.take 2⟩ : String) = "*." →
      Present E p domain token keyAuth =
        presentCore E p ⟨domain.data.drop 2⟩ keyAuth ∧
      CleanUp E p domain token keyAuth =
        cleanUpCore E p ⟨domain.data.drop 2⟩ keyAuth) ∧
    ((⟨domain.data.take 2⟩ : String) ≠ "*." →
      Present E p domain token keyAuth = presentCore E p domain keyAuth ∧
      CleanUp E p domain token keyAuth = cleanUpCore E p domain keyAuth) := by
  constructor
  · intro hw
    have hs : stripWildcard domain = GoResult.ok ⟨domain.data.drop 2⟩ := by
      unfold stripWildcard
      rw [if_neg (by omega), if_pos hw]
    exact ⟨by simp only [Present, hs], by simp only [CleanUp, hs]⟩
  · intro hw
    have hs : stripWildcard domain = GoResult.ok domain := by
      unfold stripWildcard
      rw [if_neg (by omega), if_neg hw]
    exact ⟨by simp only [Present, hs], by simp only [CleanUp, hs]⟩

/-- C3 counterexample: the one-character domain `"a"` does not begin with
`"*."`, yet `Present` and `CleanUp` do not operate on it unchanged: they
panic before any vendor call. -/
theorem C3_counterexample :
    (∀ rest : String, ("a" : String) ≠ "*." ++ rest) ∧
    Present extA provA "a" "tok" "ka" =
      (GoResult.panicked "runtime error: slice bounds out of range", []) ∧
    CleanUp extA provA "a" "tok" "ka" =
      (GoResult.panicked "runtime error: slice bounds out of range", []) := by
  refine ⟨?_, by decide, by decide⟩
  intro rest h
  have hlen := congrArg (fun s : String => s.data.length) h
  simp only [String.data_append, List.length_append] at hlen
  simp at hlen
  omega

/-- Witness for `C3_wildcard_strip` at the wildcard domain `"*.a"`
(whose remainder is a single character) and at the plain domain
`"example.com"`. -/
theorem C3_witness :
    (Present extA provA "*.a" "tok" "ka" =
        presentCore extA provA ⟨("*.a" : String).data.drop 2⟩ "ka" ∧
      CleanUp extA provA "*.a" "tok" "ka" =
        cleanUpCore extA provA ⟨("*.a" : String).data.drop 2⟩ "ka") ∧
    (Present extA provA "example.com" "tok" "ka" =
        presentCore extA provA "example.com" "ka" ∧
      CleanUp extA provA "example.com" "tok" "ka" =
        cleanUpCore extA provA "example.com" "ka") :=
  ⟨(C3_wildcard_strip extA provA "*.a" "tok" "ka" (by decide)).1 (by decide),
   (C3_wildcard_strip extA provA "example.com" "tok" "ka" (by decide)).2
      (by decide)⟩

/-- C4 (confirmed): `Present` and `CleanUp` evaluate `domain[:2]`
unconditionally, so on a domain shorter than two characters both
operations panic with a slice-out-of-range runtime error (no error value
is returned, and no vendor call is made). -/
theorem C4_short_domain_panics (E : Ext) (p : DNSProvider)
    (domain token keyAuth : String) (h : domain.data.length < 2) :
    Present E p domain token keyAuth =
      (GoResult.panicked "runtime error: slice bounds out of range", []) ∧
    CleanUp E p domain token keyAuth =
      (GoResult.panicked "runtime error: slice bounds out of range", []) := by
  have hs : stripWildcard domain =
      GoResult.panicked "runtime error: slice bounds out of range" := by
    unfold stripWildcard
    rw [if_pos h]
  exact ⟨by simp only [Present, hs], by simp only [CleanUp, hs]⟩

/-- Witness for `C4_short_domain_panics` at the empty and the
one-character domain. -/
theorem C4_witness :
    ("" : String).data.length < 2 ∧ ("a" : String).data.length < 2 ∧
    Present extA provA "" "tok" "ka" =
      (GoResult.panicked "runtime error: slice bounds out of range", []) ∧
    CleanUp extA provA "a" "tok" "ka" =
      (GoResult.panicked "runtime error: slice bounds out of range", []) :=
  ⟨by decide, by decide,
   (C4_short_domain_panics extA provA "" "tok" "ka" (by decide)).1,
   (C4_short_domain_panics extA provA "a" "tok" "ka" (by decide)).2⟩

/-- C7 (confirmed): `Timeout` returns exactly the pair
`(PropagationTimeout, PollingInterval)` stored in the provider's
configuration; it is a total pure function of the provider (it cannot
fail and does not change any state, which the model reflects by its
plain, effect-free type). -/
theorem C7_timeout_returns_config (d : DNSProvider) :
    Timeout d = (d.config.PropagationTimeout, d.config.PollingInterval) := rfl

theorem getHostedZoneRes_ok_domainList (E : Ext) (c : Client) (domain : String)
    (v : String × String) (h : getHostedZoneRes E c domain = .ok v) :
    ∃ zones, c.domainListResp = .ok zones := by
  cases hd : c.domainListResp with
  | error e =>
    rw [getHostedZoneRes, hd] at h
    simp at h
  | ok zones => exact ⟨zones, rfl⟩

/-- C1 (amended): on every successful `CleanUp`, the vendor calls are:
list domains, list the zone's records, list domains again, then one
`RecordDelete` with the vendor-assigned `Id` of each listed record whose
name equals the leaf name derived from the recomputed FQDN — regardless
of the record's type; no other record is deleted. (The claim's
restriction to TXT records is false: `findTxtRecords` filters on the
name only, so a matching record of another type is deleted too, see
`C1_counterexample`.) -/
theorem C1_cleanup_deletes_by_name (E : Ext) (p : DNSProvider)
    (domain token keyAuth : String) (trace : List ApiCall)
    (h : CleanUp E p domain token keyAuth = (GoResult.ok (), trace)) :
    ∃ dom zoneId zoneName records,
      stripWildcard domain = GoResult.ok dom ∧
      getHostedZoneRes E p.client dom = .ok (zoneId, zoneName) ∧
      p.client.recordListResp zoneName = .ok records ∧
      trace = [ApiCall.DomainList, ApiCall.RecordList zoneName,
          ApiCall.DomainList] ++
        (records.filter (fun r => r.Name =
          extractRecordName (getRecord E dom keyAuth).1 zoneName)).map
          (fun r => ApiCall.RecordDelete zoneName r.Id) := by
  rcases CleanUp_char E p domain token keyAuth with
    ⟨m, hs, hc⟩ | ⟨dom, e, hs, hz, hc⟩ | ⟨dom, zid, zn, e, hs, hz, hl, hc⟩ |
    ⟨dom, zid, zn, result, hs, hz, hl, hc⟩
  · rw [h] at hc; simp at hc
  · rw [h] at hc; simp at hc
  · rw [h] at hc; simp at hc
  · rw [h] at hc
    exact ⟨dom, zid, zn, result, hs, hz, hl,
      deleteLoop_ok_trace p.client zn _ _ trace hc.symm⟩

/-- C1 counterexample: `clientA`'s zone holds a single record of type
`"A"` whose name collides with the challenge leaf name; `CleanUp`
succeeds and deletes it (its id 7 appears in a `RecordDelete` call), so
it is false that only TXT records are ever deleted. -/
theorem C1_counterexample :
    clientA.recordListResp "example.com" = .ok [recA] ∧
    recA.type = "A" ∧ recA.Id = 7 ∧
    (CleanUp extA provA "example.com" "tok" "ka").1 = GoResult.ok () ∧
    ApiCall.RecordDelete "example.com" 7 ∈
      (CleanUp extA provA "example.com" "tok" "ka").2 :=
  ⟨rfl, rfl, rfl, by decide, by decide⟩

/-- Witness for `C1_cleanup_deletes_by_name` on the concrete run. -/
theorem C1_witness :
    ∃ dom zoneId zoneName records,
      stripWildcard "example.com" = GoResult.ok dom ∧
      getHostedZoneRes extA provA.client dom = .ok (zoneId, zoneName) ∧
      provA.client.recordListResp zoneName = .ok records ∧
      [ApiCall.DomainList, ApiCall.RecordList "example.com",
          ApiCall.DomainList, ApiCall.RecordDelete "example.com" 7] =
        [ApiCall.DomainList, ApiCall.RecordList zoneName,
          ApiCall.DomainList] ++
        (records.filter (fun r => r.Name =
          extractRecordName (getRecord extA dom "ka").1 zoneName)).map
          (fun r => ApiCall.RecordDelete zoneName r.Id) :=
  C1_cleanup_deletes_by_name extA provA "example.com" "tok" "ka" _ (by decide)

/-- C5 (confirmed): on every successful `Present`, the record handed to
`RecordCreate` has type `"TXT"`, name equal to the leaf name extracted
from the challenge FQDN and the resolved zone, value equal to the
challenge digest of the key authorization, and Ttl equal to the
configured TTL. -/
theorem C5_present_record_fields (E : Ext) (p : DNSProvider)
    (domain token keyAuth : String) (trace : List ApiCall)
    (h : Present E p domain token keyAuth = (GoResult.ok (), trace)) :
    ∃ dom zoneId zoneName r,
      stripWildcard domain = GoResult.ok dom ∧
      getHostedZoneRes E p.client dom = .ok (zoneId, zoneName) ∧
      trace = [ApiCall.DomainList, ApiCall.RecordCreate zoneName r] ∧
      r.type = "TXT" ∧
      r.Name = extractRecordName (getRecord E dom keyAuth).1 zoneName ∧
      r.Value = E.keyAuthDigest keyAuth ∧
      r.Ttl = p.config.TTL := by
  rcases Present_char E p domain token keyAuth with
    ⟨m, hs, hc⟩ | ⟨dom, e, hs, hz, hc⟩ |
    ⟨dom, zid, zn, hs, hz, ⟨e, hcr, hc⟩ | ⟨hcr, hc⟩⟩
  · rw [h] at hc; simp at hc
  · rw [h] at hc; simp at hc
  · rw [h] at hc; simp at hc
  · rw [h] at hc
    refine ⟨dom, zid, zn, presentRecord E p dom keyAuth zn, hs, hz, ?_,
      rfl, rfl, rfl, rfl⟩
    simpa using congrArg Prod.snd hc

/-- Witness for `C5_present_record_fields` on the concrete run. -/
theorem C5_witness :
    ∃ dom zoneId zoneName r,
      stripWildcard "example.com" = GoResult.ok dom ∧
      getHostedZoneRes extA provA.client dom = .ok (zoneId, zoneName) ∧
      [ApiCall.DomainList,
        ApiCall.RecordCreate "example.com" (presentRecord extA provA "example.com" "ka" "example.com")] =
        [ApiCall.DomainList, ApiCall.RecordCreate zoneName r] ∧
      r.type = "TXT" ∧
      r.Name = extractRecordName (getRecord extA dom "ka").1 zoneName ∧
      r.Value = extA.keyAuthDigest "ka" ∧
      r.Ttl = provA.config.TTL :=
  C5_present_record_fields extA provA "example.com" "tok" "ka" _ (by decide)

/-- C9 (amended): `Present` calls `DomainList` and only after it has
succeeded (and a zone has been matched) `RecordCreate`, its whole trace
being exactly those two calls; `CleanUp` calls `DomainList`, then
`RecordList`, then `DomainList` AGAIN (the zone is resolved a second
time), and only then `RecordDelete` calls, each of which requires
`RecordList` to have succeeded. (The claim's blanket order
"domains, then records, then mutations" is false because of the second
`DomainList` between `RecordList` and the deletes, see
`C9_counterexample`.) -/
theorem C9_call_order (E : Ext) (p : DNSProvider) (domain token keyAuth : String) :
    (∀ z r, ApiCall.RecordCreate z r ∈ (Present E p domain token keyAuth).2 →
      ∃ dom zoneId zones,
        stripWildcard domain = GoResult.ok dom ∧
        p.client.domainListResp = .ok zones ∧
        getHostedZoneRes E p.client dom = .ok (zoneId, z) ∧
        (Present E p domain token keyAuth).2 =
          [ApiCall.DomainList, ApiCall.RecordCreate z r]) ∧
    (∀ z i, ApiCall.RecordDelete z i ∈ (CleanUp E p domain token keyAuth).2 →
      ∃ dom zoneId zones records suffix,
        stripWildcard domain = GoResult.ok dom ∧
        p.client.domainListResp = .ok zones ∧
        getHostedZoneRes E p.client dom = .ok (zoneId, z) ∧
        p.client.recordListResp z = .ok records ∧
        (CleanUp E p domain token keyAuth).2 =
          [ApiCall.DomainList, ApiCall.RecordList z, ApiCall.DomainList] ++
            suffix ∧
        (∀ a ∈ suffix, ∃ j, a = ApiCall.RecordDelete z j)) := by
  constructor
  · intro z r hmem
    rcases Present_char E p domain token keyAuth with
      ⟨m, hs, hc⟩ | ⟨dom, e, hs, hz, hc⟩ | ⟨dom, zid, zn, hs, hz, hrest⟩
    · rw [congrArg Prod.snd hc] at hmem; simp at hmem
    · rw [congrArg Prod.snd hc] at hmem; simp at hmem
    · have htr : (Present E p domain token keyAuth).2 =
          [ApiCall.DomainList,
           ApiCall.RecordCreate zn (presentRecord E p dom keyAuth zn)] := by
        rcases hrest with ⟨e, _, hc⟩ | ⟨_, hc⟩ <;>
          simpa using congrArg Prod.snd hc
      rw [htr] at hmem
      simp only [List.mem_cons, List.not_mem_nil, or_false] at hmem
      rcases hmem with h1 | h1
      · exact absurd h1 (by simp)
      · injection h1 with hz1 hr1
        subst hz1; subst hr1
        obtain ⟨zones, hdl⟩ := getHostedZoneRes_ok_domainList E p.client dom _ hz
        exact ⟨dom, zid, zones, hs, hdl, hz, htr⟩
  · intro z i hmem
    rcases CleanUp_char E p domain token keyAuth with
      ⟨m, hs, hc⟩ | ⟨dom, e, hs, hz, hc⟩ | ⟨dom, zid, zn, e, hs, hz, hl, hc⟩ |
      ⟨dom, zid, zn, result, hs, hz, hl, hc⟩
    · rw [congrArg Prod.snd hc] at hmem; simp at hmem
    · rw [congrArg Prod.snd hc] at hmem; simp at hmem
    · rw [congrArg Prod.snd hc] at hmem; simp at hmem
    · obtain ⟨suffix, hsplit, hsufmem⟩ :=
        deleteLoop_trace_split p.client zn
          (result.filter (fun record => record.Name =
            extractRecordName (getRecord E dom keyAuth).1 zn))
          [ApiCall.DomainList, ApiCall.RecordList zn, ApiCall.DomainList]
      have htr : (CleanUp E p domain token keyAuth).2 =
          [ApiCall.DomainList, ApiCall.RecordList zn, ApiCall.DomainList] ++
            suffix := by
        rw [congrArg Prod.snd hc]; exact hsplit
      rw [htr] at hmem
      simp only [List.mem_append, List.mem_cons, List.not_mem_nil, or_false]
        at hmem
      rcases hmem with (h1 | h1 | h1) | h1
      · exact absurd h1 (by simp)
      · exact absurd h1 (by simp)
      · exact absurd h1 (by simp)
      · obtain ⟨j, hj⟩ := hsufmem _ h1
        injection hj with hz1 hi1
        subst hz1
        obtain ⟨zones, hdl⟩ := getHostedZoneRes_ok_domainList E p.client dom _ hz
        exact ⟨dom, zid, zones, result, suffix, hs, hdl, hz, hl, htr, hsufmem⟩

/-- C9 counterexample: on the concrete successful `CleanUp` run the trace
is `[DomainList, RecordList, DomainList, RecordDelete]`: a `DomainList`
call (index 2) occurs AFTER the `RecordList` call (index 1), so the
vendor calls do not occur in the claimed order
"list domains, then list records, then delete". -/
theorem C9_counterexample :
    (CleanUp extA provA "example.com" "tok" "ka").2 =
      [ApiCall.DomainList, ApiCall.RecordList "example.com",
       ApiCall.DomainList, ApiCall.RecordDelete "example.com" 7] ∧
    (CleanUp extA provA "example.com" "tok" "ka").2.get? 1 =
      some (ApiCall.RecordList "example.com") ∧
    (CleanUp extA provA "example.com" "tok" "ka").2.get? 2 =
      some ApiCall.DomainList :=
  ⟨by decide, by decide, by decide⟩

/-- Witness for `C9_call_order` on the concrete runs. -/
theorem C9_witness :
    (∃ dom zoneId zones,
      stripWildcard "example.com" = GoResult.ok dom ∧
      provA.client.domainListResp = .ok zones ∧
      getHostedZoneRes extA provA.client dom = .ok (zoneId, "example.com") ∧
      (Present extA provA "example.com" "tok" "ka").2 =
        [ApiCall.DomainList,
         ApiCall.RecordCreate "example.com"
           (presentRecord extA provA "example.com" "ka" "example.com")]) ∧
    (∃ dom zoneId zones records suffix,
      stripWildcard "example.com" = GoResult.ok dom ∧
      provA.client.domainListResp = .ok zones ∧
      getHostedZoneRes extA provA.client dom = .ok (zoneId, "example.com") ∧
      provA.client.recordListResp "example.com" = .ok records ∧
      (CleanUp extA provA "example.com" "tok" "ka").2 =
        [ApiCall.DomainList, ApiCall.RecordList "example.com",
          ApiCall.DomainList] ++ suffix ∧
      (∀ a ∈ suffix, ∃ j, a = ApiCall.RecordDelete "example.com" j)) :=
  ⟨(C9_call_order extA provA "example.com" "tok" "ka").1 "example.com"
      (presentRecord extA provA "example.com" "ka" "example.com") (by decide),
   (C9_call_order extA provA "example.com" "tok" "ka").2 "example.com" 7
      (by decide)⟩

theorem foldl_pick_last (n : String) (init : Domain) (zones : List Domain) :
    zones.foldl (fun acc zone => if zone.Name = n then zone else acc) init =
      ((zones.filter (fun zone => zone.Name = n)).getLast?).getD init := by
  induction zones using List.reverseRecOn with
  | nil => simp
  | append_singleton zs z ih =>
    rw [List.foldl_append, List.filter_append]
    by_cases hz : z.Name = n
    · simp [List.foldl, hz, List.getLast?_concat]
    · simp [List.foldl, hz, ih]

/-- C10 (confirmed): when `DomainList` succeeds and the authoritative
zone resolves, `getHostedZone` keeps the LAST listed zone whose name
equals the un-FQDN'd authoritative zone; a kept zone with vendor `Id = 0`
is indistinguishable from no match, producing the "zone not found" error;
and whenever `getHostedZone` fails, `Present` performs no `RecordCreate`
and `CleanUp` performs no `RecordDelete`. -/
theorem C10_last_match_zero_id :
    (∀ (E : Ext) (c : Client) (domain authZone : String) (zones : List Domain),
      c.domainListResp = .ok zones →
      E.findZoneByFqdn (toFqdn domain) = .ok authZone →
      ((zones.filter (fun z => z.Name = unFqdn authZone)).getLast? = none →
        getHostedZoneRes E c domain =
          .error ("getHostedZone: zone " ++ authZone ++
            " not found in qcloud cns for domain " ++ domain)) ∧
      (∀ z, (zones.filter (fun z => z.Name = unFqdn authZone)).getLast? = some z →
        (z.Id = 0 →
          getHostedZoneRes E c domain =
            .error ("getHostedZone: zone " ++ authZone ++
              " not found in qcloud cns for domain " ++ domain)) ∧
        (z.Id ≠ 0 →
          getHostedZoneRes E c domain = .ok (toString z.Id, z.Name)))) ∧
    (∀ (E : Ext) (p : DNSProvider) (domain token keyAuth dom e : String),
      stripWildcard domain = GoResult.ok dom →
      getHostedZoneRes E p.client dom = .error e →
      (∀ z r, ApiCall.RecordCreate z r ∉ (Present E p domain token keyAuth).2) ∧
      (∀ z i, ApiCall.RecordDelete z i ∉ (CleanUp E p domain token keyAuth).2)) := by
  constructor
  · intro E c domain authZone zones hdl hfz
    have hbody : getHostedZoneRes E c domain =
        (if (((zones.filter (fun z => z.Name = unFqdn authZone)).getLast?).getD
            { Id := 0, Name := "" }).Id = 0 then
          .error ("getHostedZone: zone " ++ authZone ++
            " not found in qcloud cns for domain " ++ domain)
        else
          .ok (toString
            (((zones.filter (fun z => z.Name = unFqdn authZone)).getLast?).getD
              { Id := 0, Name := "" }).Id,
            (((zones.filter (fun z => z.Name = unFqdn authZone)).getLast?).getD
              { Id := 0, Name := "" }).Name)) := by
      simp only [getHostedZoneRes, hdl, hfz, foldl_pick_last]
    constructor
    · intro hnone
      rw [hbody, hnone]
      simp
    · intro z hsome
      rw [hbody, hsome]
      constructor
      · intro h0; simp [h0]
      · intro h0; simp [h0]
  · intro E p domain token keyAuth dom e hs hz
    constructor
    · intro z r hmem
      rcases Present_char E p domain token keyAuth with
        ⟨m, hs2, hc⟩ | ⟨dom2, e2, hs2, hz2, hc⟩ | ⟨dom2, zid, zn, hs2, hz2, hrest⟩
      · rw [congrArg Prod.snd hc] at hmem; simp at hmem
      · rw [congrArg Prod.snd hc] at hmem; simp at hmem
      · rw [hs] at hs2
        injection hs2 with hdom
        subst hdom
        rw [hz] at hz2
        simp at hz2
    · intro z i hmem
      rcases CleanUp_char E p domain token keyAuth with
        ⟨m, hs2, hc⟩ | ⟨dom2, e2, hs2, hz2, hc⟩ |
        ⟨dom2, zid, zn, e2, hs2, hz2, hl, hc⟩ |
        ⟨dom2, zid, zn, result, hs2, hz2, hl, hc⟩
      · rw [congrArg Prod.snd hc] at hmem; simp at hmem
      · rw [congrArg Prod.snd hc] at hmem; simp at hmem
      · rw [hs] at hs2
        injection hs2 with hdom
        subst hdom
        rw [hz] at hz2
        simp at hz2
      · rw [hs] at hs2
        injection hs2 with hdom
        subst hdom
        rw [hz] at hz2
        simp at hz2

/-- Witness for `C10_last_match_zero_id`: with two same-named zones the
last one (id 2) is selected; when the last same-named zone has id 0 the
"zone not found" error is returned although a nonzero match (id 5) was
listed; and after a `DomainList` failure no `RecordCreate` happens. -/
theorem C10_witness :
    getHostedZoneRes extA clientDup "example.com" = .ok ("2", "example.com") ∧
    getHostedZoneRes extA clientZero "example.com" =
      .error ("getHostedZone: zone " ++ "example.com." ++
        " not found in qcloud cns for domain " ++ "example.com") ∧
    ApiCall.RecordCreate "example.com" recT7 ∉
      (Present extA provErr "example.com" "tok" "ka").2 :=
  ⟨((C10_last_match_zero_id.1 extA clientDup "example.com" "example.com."
        zonesDup rfl rfl).2 { Id := 2, Name := "example.com" }
        (by decide)).2 (by decide),
   ((C10_last_match_zero_id.1 extA clientZero "example.com" "example.com."
        zonesZero rfl rfl).2 { Id := 0, Name := "example.com" }
        (by decide)).1 rfl,
   (C10_last_match_zero_id.2 extA provErr "example.com" "tok" "ka"
        "example.com" ("qcloud cns: DomainList() API call failed: " ++ "api down")
        (by decide) rfl).1 "example.com" recT7⟩

/-- C6 (amended): `NewDNSProvider` reads `QCLOUD_SECRET_ID` and
`QCLOUD_SECRET_KEY` and fails with a wrapped error when either is absent,
and a provider it constructs carries both (nonempty) secrets;
`NewDNSProviderConfig` fails when the configuration is nil or when
`SecretKey` is empty — but it does NOT check `SecretId`, so it can
construct a provider whose `SecretId` is empty (`C6_counterexample`),
refuting the claim that every constructed provider carries both
secrets. -/
theorem C6_credentials (cnsNew : String → String → Client) :
    NewDNSProviderConfig cnsNew none =
      .error "qcloud cns: the configuration of the DNS provider is nil" ∧
    (∀ cfg : Config, cfg.SecretKey = "" →
      NewDNSProviderConfig cnsNew (some cfg) =
        .error "qcloud cns: credentials missing") ∧
    (∀ osEnv : String → String,
      osEnv "QCLOUD_SECRET_ID" = "" ∨ osEnv "QCLOUD_SECRET_KEY" = "" →
      ∃ e, NewDNSProvider osEnv cnsNew = .error ("qcloud cns: " ++ e)) ∧
    (∀ (osEnv : String → String) (p : DNSProvider),
      NewDNSProvider osEnv cnsNew = .ok p →
      p.config.SecretId = osEnv "QCLOUD_SECRET_ID" ∧
      p.config.SecretKey = osEnv "QCLOUD_SECRET_KEY" ∧
      p.config.SecretId ≠ "" ∧ p.config.SecretKey ≠ "") := by
  refine ⟨rfl, ?_, ?_, ?_⟩
  · intro cfg hk
    simp [NewDNSProviderConfig, hk]
  · intro osEnv hmiss
    by_cases h1 : osEnv "QCLOUD_SECRET_ID" = "" <;>
      by_cases h2 : osEnv "QCLOUD_SECRET_KEY" = ""
    · exact ⟨"some credentials information are missing: " ++
        String.intercalate "," ["QCLOUD_SECRET_ID", "QCLOUD_SECRET_KEY"],
        by simp [NewDNSProvider, envGet, h1, h2]⟩
    · exact ⟨"some credentials information are missing: " ++
        String.intercalate "," ["QCLOUD_SECRET_ID"],
        by simp [NewDNSProvider, envGet, h1, h2]⟩
    · exact ⟨"some credentials information are missing: " ++
        String.intercalate "," ["QCLOUD_SECRET_KEY"],
        by simp [NewDNSProvider, envGet, h1, h2]⟩
    · rcases hmiss with h | h
      · exact absurd h h1
      · exact absurd h h2
  · intro osEnv p hp
    by_cases h1 : osEnv "QCLOUD_SECRET_ID" = "" <;>
      by_cases h2 : osEnv "QCLOUD_SECRET_KEY" = ""
    · simp [NewDNSProvider, envGet, h1, h2] at hp
    · simp [NewDNSProvider, envGet, h1, h2] at hp
    · simp [NewDNSProvider, envGet, h1, h2] at hp
    · have hnew : NewDNSProvider osEnv cnsNew =
          Except.ok { config := { SecretId := osEnv "QCLOUD_SECRET_ID",
                                  SecretKey := osEnv "QCLOUD_SECRET_KEY",
                                  TTL := (NewDefaultConfig osEnv).TTL,
                                  PropagationTimeout :=
                                    (NewDefaultConfig osEnv).PropagationTimeout,
                                  PollingInterval :=
                                    (NewDefaultConfig osEnv).PollingInterval },
                      client := cnsNew (osEnv "QCLOUD_SECRET_ID")
                        (osEnv "QCLOUD_SECRET_KEY") } := by
        simp [NewDNSProvider, envGet, NewDNSProviderConfig, h1, h2]
      rw [hnew] at hp
      have hcfg := congrArg DNSProvider.config (Except.ok.inj hp)
      refine ⟨?_, ?_, ?_, ?_⟩ <;> rw [← hcfg] <;>
        first
          | rfl
          | exact h1
          | exact h2

/-- C6 counterexample: a configuration with an empty `SecretId` and a
nonempty `SecretKey` is accepted by `NewDNSProviderConfig`, which
constructs a provider that does not carry the `SecretId` secret —
refuting "fails when the credentials are missing, so every constructed
DNSProvider carries both secrets". -/
theorem C6_counterexample :
    cfgNoId.SecretId = "" ∧
    exceptIsOk (NewDNSProviderConfig cnsNewA (some cfgNoId)) = true ∧
    (∀ p : DNSProvider, NewDNSProviderConfig cnsNewA (some cfgNoId) = .ok p →
      p.config.SecretId = "") := by
  refine ⟨rfl, rfl, ?_⟩
  intro p hp
  have hcfg := congrArg DNSProvider.config (Except.ok.inj hp)
  rw [← hcfg]
  rfl

/-- Witness for `C6_credentials` at concrete environments. -/
theorem C6_witness :
    NewDNSProviderConfig cnsNewA none =
      .error "qcloud cns: the configuration of the DNS provider is nil" ∧
    NewDNSProviderConfig cnsNewA
        (some { cfgNoId with SecretKey := "" }) =
      .error "qcloud cns: credentials missing" ∧
    (∃ e, NewDNSProvider envNoId cnsNewA = .error ("qcloud cns: " ++ e)) ∧
    (provBoth.config.SecretId = envBoth "QCLOUD_SECRET_ID" ∧
      provBoth.config.SecretKey = envBoth "QCLOUD_SECRET_KEY" ∧
      provBoth.config.SecretId ≠ "" ∧ provBoth.config.SecretKey ≠ "") :=
  ⟨(C6_credentials cnsNewA).1,
   (C6_credentials cnsNewA).2.1 { cfgNoId with SecretKey := "" } rfl,
   (C6_credentials cnsNewA).2.2.1 envNoId (Or.inl rfl),
   (C6_credentials cnsNewA).2.2.2 envBoth provBoth rfl⟩

theorem domainList_fail_err (E : Ext) (c : Client) (dom e : String)
    (hz : getHostedZoneRes E c dom = .error e)
    (hbad : callOk c ApiCall.DomainList = false) :
    ∃ e0, c.domainListResp = .error e0 ∧
      e = "qcloud cns: DomainList() API call failed: " ++ e0 ∧
      callErr c ApiCall.DomainList = some e0 := by
  cases hd : c.domainListResp with
  | ok zones => simp [callOk, exceptIsOk, hd] at hbad
  | error e0 =>
    simp only [getHostedZoneRes, hd] at hz
    exact ⟨e0, rfl, (Except.error.inj hz).symm, by simp [callErr, hd]⟩

/-- C8 (amended): no vendor API call ever follows a failed one — in every
trace of `Present` or `CleanUp`, every call except possibly the last
succeeded — and when the last call failed, the operation returns that
vendor error wrapped under a nonempty contextual prefix, with no retry.
(The claim's stronger clause "each vendor API call site is executed at
most once per failure path" is false: the `RecordDelete` call site inside
`CleanUp`'s loop runs once per matched record, so on a failure path where
an earlier delete succeeded it has executed more than once, see
`C8_counterexample`.) -/
theorem C8_no_call_after_failure (E : Ext) (p : DNSProvider)
    (domain token keyAuth : String) :
    (∀ a ∈ (Present E p domain token keyAuth).2.dropLast,
      callOk p.client a = true) ∧
    (∀ a, (Present E p domain token keyAuth).2.getLast? = some a →
      callOk p.client a = false →
      ∃ ctx e, (Present E p domain token keyAuth).1 = GoResult.err (ctx ++ e) ∧
        ctx ≠ "" ∧ callErr p.client a = some e) ∧
    (∀ a ∈ (CleanUp E p domain token keyAuth).2.dropLast,
      callOk p.client a = true) ∧
    (∀ a, (CleanUp E p domain token keyAuth).2.getLast? = some a →
      callOk p.client a = false →
      ∃ ctx e, (CleanUp E p domain token keyAuth).1 = GoResult.err (ctx ++ e) ∧
        ctx ≠ "" ∧ callErr p.client a = some e) := by
  refine ⟨?_, ?_, ?_, ?_⟩
  case refine_1 =>
    rcases Present_char E p domain token keyAuth with
      ⟨m, hs, hc⟩ | ⟨dom, e, hs, hz, hc⟩ | ⟨dom, zid, zn, hs, hz, hrest⟩
    · intro a ha; rw [congrArg Prod.snd hc] at ha; simp at ha
    · intro a ha; rw [congrArg Prod.snd hc] at ha; simp at ha
    · have hdlok : callOk p.client ApiCall.DomainList = true := by
        obtain ⟨zones, hd⟩ := getHostedZoneRes_ok_domainList E p.client dom _ hz
        simp [callOk, exceptIsOk, hd]
      have htr : (Present E p domain token keyAuth).2 =
          [ApiCall.DomainList,
           ApiCall.RecordCreate zn (presentRecord E p dom keyAuth zn)] := by
        rcases hrest with ⟨e, _, hc⟩ | ⟨_, hc⟩ <;>
          simpa using congrArg Prod.snd hc
      intro a ha
      rw [htr] at ha
      simp only [List.dropLast, List.mem_singleton] at ha
      rw [ha]
      exact hdlok
  case refine_2 =>
    rcases Present_char E p domain token keyAuth with
      ⟨m, hs, hc⟩ | ⟨dom, e, hs, hz, hc⟩ | ⟨dom, zid, zn, hs, hz, hrest⟩
    · intro a hlast
      rw [congrArg Prod.snd hc] at hlast
      simp at hlast
    · intro a hlast hbad
      rw [congrArg Prod.snd hc] at hlast
      have ha : a = ApiCall.DomainList := by simpa using hlast.symm
      subst ha
      obtain ⟨e0, hd, he, hce⟩ := domainList_fail_err E p.client dom e hz hbad
      refine ⟨"qcloud cns: DomainList() API call failed: ", e0, ?_, by decide,
        hce⟩
      rw [congrArg Prod.fst hc]
      rw [he]
    · intro a hlast hbad
      have hdlok : callOk p.client ApiCall.DomainList = true := by
        obtain ⟨zones, hd⟩ := getHostedZoneRes_ok_domainList E p.client dom _ hz
        simp [callOk, exceptIsOk, hd]
      rcases hrest with ⟨e, hcr, hc⟩ | ⟨hcr, hc⟩
      · rw [congrArg Prod.snd hc] at hlast
        have ha : a =
            ApiCall.RecordCreate zn (presentRecord E p dom keyAuth zn) := by
          simpa using hlast.symm
        subst ha
        refine ⟨"qcloud cns: RecordCreate() API call failed: ", e, ?_,
          by decide, ?_⟩
        · rw [congrArg Prod.fst hc]
        · simp [callErr, hcr]
      · rw [congrArg Prod.snd hc] at hlast
        have ha : a =
            ApiCall.RecordCreate zn (presentRecord E p dom keyAuth zn) := by
          simpa using hlast.symm
        subst ha
        rw [show callOk p.client
            (ApiCall.RecordCreate zn (presentRecord E p dom keyAuth zn)) =
            true by simp [callOk, exceptIsOk, hcr]] at hbad
        cases hbad
  case refine_3 =>
    rcases CleanUp_char E p domain token keyAuth with
      ⟨m, hs, hc⟩ | ⟨dom, e, hs, hz, hc⟩ |
      ⟨dom, zid, zn, e, hs, hz, hl, hc⟩ | ⟨dom, zid, zn, result, hs, hz, hl, hc⟩
    · intro a ha; rw [congrArg Prod.snd hc] at ha; simp at ha
    · intro a ha; rw [congrArg Prod.snd hc] at ha; simp at ha
    · have hdlok : callOk p.client ApiCall.DomainList = true := by
        obtain ⟨zones, hd⟩ := getHostedZoneRes_ok_domainList E p.client dom _ hz
        simp [callOk, exceptIsOk, hd]
      intro a ha
      rw [congrArg Prod.snd hc] at ha
      simp only [List.dropLast, List.mem_singleton] at ha
      rw [ha]
      exact hdlok
    · have hdlok : callOk p.client ApiCall.DomainList = true := by
        obtain ⟨zones, hd⟩ := getHostedZoneRes_ok_domainList E p.client dom _ hz
        simp [callOk, exceptIsOk, hd]
      have hinv : ∀ a ∈ [ApiCall.DomainList, ApiCall.RecordList zn,
          ApiCall.DomainList], callOk p.client a = true := by
        intro a ha
        simp only [List.mem_cons, List.not_mem_nil, or_false] at ha
        rcases ha with rfl | rfl | rfl
        · exact hdlok
        · simp [callOk, exceptIsOk, hl]
        · exact hdlok
      intro a ha
      rw [congrArg Prod.snd hc] at ha
      exact (deleteLoop_fail_wrap p.client zn
        (result.filter (fun record => record.Name =
          extractRecordName (getRecord E dom keyAuth).1 zn))
        [ApiCall.DomainList, ApiCall.RecordList zn, ApiCall.DomainList]
        hinv).1 a ha
  case refine_4 =>
    rcases CleanUp_char E p domain token keyAuth with
      ⟨m, hs, hc⟩ | ⟨dom, e, hs, hz, hc⟩ |
      ⟨dom, zid, zn, e, hs, hz, hl, hc⟩ | ⟨dom, zid, zn, result, hs, hz, hl, hc⟩
    · intro a hlast
      rw [congrArg Prod.snd hc] at hlast
      simp at hlast
    · intro a hlast hbad
      rw [congrArg Prod.snd hc] at hlast
      have ha : a = ApiCall.DomainList := by simpa using hlast.symm
      subst ha
      obtain ⟨e0, hd, he, hce⟩ := domainList_fail_err E p.client dom e hz hbad
      refine ⟨"CleanUp(): findTxtRecords err: " ++
        "qcloud cns: DomainList() API call failed: ", e0, ?_, by decide, hce⟩
      rw [congrArg Prod.fst hc, he, String.append_assoc]
    · intro a hlast hbad
      rw [congrArg Prod.snd hc] at hlast
      have ha : a = ApiCall.RecordList zn := by simpa using hlast.symm
      subst ha
      refine ⟨"CleanUp(): findTxtRecords err: " ++
        "qcloud cns: RecordList() API call has failed: ", e, ?_, by decide, ?_⟩
      · rw [congrArg Prod.fst hc, String.append_assoc]
      · simp [callErr, hl]
    · have hdlok : callOk p.client ApiCall.DomainList = true := by
        obtain ⟨zones, hd⟩ := getHostedZoneRes_ok_domainList E p.client dom _ hz
        simp [callOk, exceptIsOk, hd]
      have hinv : ∀ a ∈ [ApiCall.DomainList, ApiCall.RecordList zn,
          ApiCall.DomainList], callOk p.client a = true := by
        intro a ha
        simp only [List.mem_cons, List.not_mem_nil, or_false] at ha
        rcases ha with rfl | rfl | rfl
        · exact hdlok
        · simp [callOk, exceptIsOk, hl]
        · exact hdlok
      intro a hlast hbad
      rw [congrArg Prod.snd hc] at hlast
      obtain ⟨ctx, e2, h1, h2, h3⟩ := (deleteLoop_fail_wrap p.client zn
        (result.filter (fun record => record.Name =
          extractRecordName (getRecord E dom keyAuth).1 zn))
        [ApiCall.DomainList, ApiCall.RecordList zn, ApiCall.DomainList]
        hinv).2 a hlast hbad
      refine ⟨ctx, e2, ?_, h2, h3⟩
      rw [congrArg Prod.fst hc]
      exact h1

/-- C8 counterexample: with two matching records where the delete of
id 7 succeeds and the delete of id 8 fails, `CleanUp` follows a failure
path on which the `RecordDelete` call site has executed twice, refuting
"each vendor API call site is executed at most once per failure path". -/
theorem C8_counterexample :
    (CleanUp extA provDel "example.com" "tok" "ka").1 =
      GoResult.err ("CleanUp(): qcloud cns: RecordDelete err: " ++
        "delete failed") ∧
    ((CleanUp extA provDel "example.com" "tok" "ka").2.filter
      isRecordDeleteCall).length = 2 :=
  ⟨by decide, by decide⟩

/-- Witness for `C8_no_call_after_failure` on the concrete failing run. -/
theorem C8_witness :
    callOk provDel.client ApiCall.DomainList = true ∧
    (∃ ctx e, (CleanUp extA provDel "example.com" "tok" "ka").1 =
        GoResult.err (ctx ++ e) ∧ ctx ≠ "" ∧
      callErr provDel.client (ApiCall.RecordDelete "example.com" 8) = some e) :=
  ⟨(C8_no_call_after_failure extA provDel "example.com" "tok" "ka").2.2.1
      ApiCall.DomainList (by decide),
   (C8_no_call_after_failure extA provDel "example.com" "tok" "ka").2.2.2
      (ApiCall.RecordDelete "example.com" 8) (by decide) (by decide)⟩

end Qcloud
